import Mathlib

/-!
Shallow embedding of `pdf_toolkit.py` (jeeelleeel/pdf_toolkit).

Coordinates are modelled as rationals (`ℚ`): the Python code computes page
geometry with ordinary float arithmetic on values (page sizes, heights,
intervals) whose derivations here involve only +, -, *, min and comparisons,
which ℚ models faithfully for the quantities under study.

Strings are modelled by Lean `String` / `List Char` (Python `str`).
A Python function that can raise on the modelled path returns an `Option`.
-/

/-- `pymupdf.Rect(x0, y0, x1, y1)`. -/
structure PRect where
  x0 : ℚ
  y0 : ℚ
  x1 : ℚ
  y1 : ℚ
deriving DecidableEq, Repr

/-- `pymupdf.Rect.width`: `max 0 (x1 - x0)` per PyMuPDF's documented semantics. -/
def PRect.width (r : PRect) : ℚ := max 0 (r.x1 - r.x0)

/-- `pymupdf.Rect.height`: `max 0 (y1 - y0)` per PyMuPDF's documented semantics. -/
def PRect.height (r : PRect) : ℚ := max 0 (r.y1 - r.y0)

/-- `pymupdf.Rect.is_valid` per PyMuPDF's documented semantics: a rectangle is
valid iff it is not infinite, i.e. `x0 ≤ x1 ∧ y0 ≤ y1`; degenerate (empty)
rectangles are valid. -/
def PRect.is_valid (r : PRect) : Bool := decide (r.x0 ≤ r.x1) && decide (r.y0 ≤ r.y1)

/-- `create_rect(x, y, width, height)` from `pdf_toolkit.py`:
`pymupdf.Rect(x, y, x+width, y+height)`. -/
def create_rect (x y width height : ℚ) : PRect := ⟨x, y, x + width, y + height⟩

/-! ## Region layout (header_to_pdf / pagenum_to_pdf / header_and_pagenum_to_pdf) -/

/-- Header region of `header_to_pdf` (line 384) and `header_and_pagenum_to_pdf`
(line 730): `pymupdf.Rect(0, 0, width, header_height)`. -/
def header_region (W header_height : ℚ) : PRect := ⟨0, 0, W, header_height⟩

/-- Footer region of `pagenum_to_pdf` (line 585) and `header_and_pagenum_to_pdf`
(line 731): `pymupdf.Rect(0, height - footer_height, width, height)`. -/
def footer_region (W H footer_height : ℚ) : PRect := ⟨0, H - footer_height, W, H⟩

/-- Content region of `header_to_pdf` (lines 387-390): when `resize_original`,
`Rect(0, header_height, width, height)`, else the full page. -/
def header_to_pdf_content_rect (W H header_height : ℚ) (resize_original : Bool) : PRect :=
  if resize_original then ⟨0, header_height, W, H⟩ else ⟨0, 0, W, H⟩

/-- Content region of `pagenum_to_pdf` (lines 588-592): when `resize_original`,
`Rect(0, 0, width, height - footer_height)`, else the full page. -/
def pagenum_to_pdf_content_rect (W H footer_height : ℚ) (resize_original : Bool) : PRect :=
  if resize_original then ⟨0, 0, W, H - footer_height⟩ else ⟨0, 0, W, H⟩

/-- Content region of `header_and_pagenum_to_pdf` (lines 734-737): when
`resize_original`, `Rect(0, header_height, width, height - footer_height)`,
else `Rect(0, 0, original_width, original_height)` (the new page has the same
size as the original, so this is the full page). -/
def hp_content_rect (W H header_height footer_height : ℚ) (resize_original : Bool) : PRect :=
  if resize_original then ⟨0, header_height, W, H - footer_height⟩ else ⟨0, 0, W, H⟩

/-! ## The per-page pipeline of `header_and_pagenum_to_pdf` (lines 721-808)

Each loop iteration appends pages to the output document:
* it always creates a fresh blank page of the source page's size (line 727);
* if the computed content region has non-positive height it appends a verbatim
  copy of the source page via `insert_pdf` (line 743) and continues, leaving
  the just-created blank page in the output;
* otherwise the blank page becomes a composed page: source content shown in
  the content region, an optional footer page-number text, and the header text
  stamped unless `stamp_only_firstpage ∧ page_idx > 0` (line 790).
-/

/-- Configuration slice of `header_and_pagenum_to_pdf` relevant to page layout. -/
structure HPConfig where
  header_height : ℚ
  footer_height : ℚ
  resize_original : Bool
  write_pagenum : Bool
  show_total_pages : Bool
  stamp_only_firstpage : Bool
deriving DecidableEq, Repr

/-- One page of the output document of `header_and_pagenum_to_pdf`:
a never-composited blank page, a verbatim copy of source page `idx`
(`insert_pdf`), or a composed page (content region, optional footer text,
whether the header text was inserted). -/
inductive HPPage where
  | blank : ℚ → ℚ → HPPage
  | copy : ℕ → HPPage
  | composed : ℚ → ℚ → PRect → Option String → Bool → HPPage
deriving DecidableEq, Repr

/-- Footer text of `header_and_pagenum_to_pdf` (lines 750-753):
`f" {page_idx + 1} / {total_pages}"` or `f" {page_idx + 1}"` — note the
leading space inside the f-string. -/
def hp_pagenum_text (show_total_pages : Bool) (idx total : ℕ) : String :=
  if show_total_pages then " " ++ toString (idx + 1) ++ " / " ++ toString total
  else " " ++ toString (idx + 1)

/-- Footer text of `pagenum_to_pdf` (lines 596-599):
`f"{page_idx + 1} / {total_pages}"` or `f"{page_idx + 1}"`. -/
def pagenum_to_pdf_text (show_total_pages : Bool) (idx total : ℕ) : String :=
  if show_total_pages then toString (idx + 1) ++ " / " ++ toString total
  else toString (idx + 1)

/-- The pages appended to the output document by one iteration of the page loop
of `header_and_pagenum_to_pdf` (lines 721-808), for source page `pg = (W, H)`
at index `idx`. -/
def hp_process_page (cfg : HPConfig) (total idx : ℕ) (pg : ℚ × ℚ) : List HPPage :=
  let content := hp_content_rect pg.1 pg.2 cfg.header_height cfg.footer_height cfg.resize_original
  if content.height ≤ 0 then
    [HPPage.blank pg.1 pg.2, HPPage.copy idx]
  else
    [HPPage.composed pg.1 pg.2 content
      (if cfg.write_pagenum then some (hp_pagenum_text cfg.show_total_pages idx total) else none)
      (!(cfg.stamp_only_firstpage && decide (0 < idx)))]

/-- The page loop of `header_and_pagenum_to_pdf` from index `start` on the
remaining source pages. -/
def hp_process_from (cfg : HPConfig) (total start : ℕ) : List (ℚ × ℚ) → List HPPage
  | [] => []
  | pg :: rest => hp_process_page cfg total start pg ++ hp_process_from cfg total (start + 1) rest

/-- The full output document (as a page list) of `header_and_pagenum_to_pdf`
on a source document given by its page sizes. -/
def hp_process_doc (cfg : HPConfig) (pages : List (ℚ × ℚ)) : List HPPage :=
  hp_process_from cfg pages.length 0 pages

/-- Whether the composed header text was inserted on an output page. -/
def HPPage.headerStampedField : HPPage → Option Bool
  | HPPage.composed _ _ _ _ b => some b
  | _ => none

/-- Footer text of an output page, when it is a composed page. -/
def HPPage.footerTextField : HPPage → Option (Option String)
  | HPPage.composed _ _ _ t _ => some t
  | _ => none

/-! ## The per-page pipeline of `header_to_pdf` (lines 374-430)

There is no collapse check: the content region is passed to `show_pdf_page`
unconditionally.  The header text insertion is skipped by
`if stamp_only_firstpage: continue` (line 412) — unconditionally on every
page, including the first. -/

/-- Configuration slice of `header_to_pdf` relevant to page layout. -/
structure HeaderConfig where
  header_height : ℚ
  resize_original : Bool
  stamp_only_firstpage : Bool
deriving DecidableEq, Repr

/-- One output page of `header_to_pdf`. -/
structure HdrPage where
  W : ℚ
  H : ℚ
  content : PRect
  header_stamped : Bool
deriving DecidableEq, Repr

/-- One iteration of the page loop of `header_to_pdf` (lines 374-430): the
output page for source page `pg` at index `idx`.  Note `idx` does not influence
`header_stamped`: line 412 `continue`s whenever `stamp_only_firstpage` holds. -/
def header_to_pdf_process_page (cfg : HeaderConfig) (_idx : ℕ) (pg : ℚ × ℚ) : HdrPage :=
  { W := pg.1
    H := pg.2
    content := header_to_pdf_content_rect pg.1 pg.2 cfg.header_height cfg.resize_original
    header_stamped := !cfg.stamp_only_firstpage }

/-! ## Entry guards (C5)

Every operation begins with a guard sequence over the filesystem state.  In
`masking_to_pdf` (lines 68-76) and `grid_to_pdf` (lines 155-163) each failing
guard logs at fatal severity and `return`s.  In `header_to_pdf` (lines
359-367), `pagenum_to_pdf` (lines 562-570) and `header_and_pagenum_to_pdf`
(lines 704-712) the overwrite guard logs the same fatal message but has no
`return`, so execution falls through and the file is written anyway.
`concat_pdf` (lines 1087-1092) checks only folder existence (with `return`)
and the overwrite guard (without `return`). -/

/-- Filesystem state seen by an operation's guards. -/
structure FsState where
  input_exists : Bool
  output_exists : Bool
  same_path : Bool
deriving DecidableEq, Repr

/-- Whether the guards let the operation proceed to open and write files. -/
inductive GuardResult where
  | abort : GuardResult
  | proceed : GuardResult
deriving DecidableEq, Repr

/-- Guard sequence of `masking_to_pdf` (lines 68-76): each failure `return`s. -/
def masking_to_pdf_guard (s : FsState) (overwrite : Bool) : GuardResult :=
  if !s.input_exists then GuardResult.abort
  else if s.same_path then GuardResult.abort
  else if !overwrite && s.output_exists then GuardResult.abort
  else GuardResult.proceed

/-- Guard sequence of `grid_to_pdf` (lines 155-163): identical to
`masking_to_pdf`'s, each failure `return`s. -/
def grid_to_pdf_guard (s : FsState) (overwrite : Bool) : GuardResult :=
  if !s.input_exists then GuardResult.abort
  else if s.same_path then GuardResult.abort
  else if !overwrite && s.output_exists then GuardResult.abort
  else GuardResult.proceed

/-- Guard sequence of `header_to_pdf` (lines 359-367): the first two failures
`return`; the overwrite guard (line 365-366) only logs — no `return` — so the
operation proceeds. -/
def header_to_pdf_guard (s : FsState) (_overwrite : Bool) : GuardResult :=
  if !s.input_exists then GuardResult.abort
  else if s.same_path then GuardResult.abort
  else GuardResult.proceed

/-- Guard sequence of `pagenum_to_pdf` (lines 562-570): same shape as
`header_to_pdf`'s — the overwrite guard logs but does not `return`. -/
def pagenum_to_pdf_guard (s : FsState) (_overwrite : Bool) : GuardResult :=
  if !s.input_exists then GuardResult.abort
  else if s.same_path then GuardResult.abort
  else GuardResult.proceed

/-- Guard sequence of `header_and_pagenum_to_pdf` (lines 704-712): same shape
as `header_to_pdf`'s — the overwrite guard logs but does not `return`. -/
def hp_guard (s : FsState) (_overwrite : Bool) : GuardResult :=
  if !s.input_exists then GuardResult.abort
  else if s.same_path then GuardResult.abort
  else GuardResult.proceed

/-- Guard sequence of `concat_pdf` (lines 1087-1092): missing input folder
`return`s; the overwrite guard (lines 1090-1091) logs but does not `return`. -/
def concat_pdf_guard (s : FsState) (_overwrite : Bool) : GuardResult :=
  if !s.input_exists then GuardResult.abort
  else GuardResult.proceed

/-! ## Session release (C7)

Each operation's `finally` block closes the document(s) it opened, guarded by
`'doc' in locals()` (the session was opened) and the `is_closed` flag.
`masking_to_pdf` (lines 98-100) closes when `not doc.is_closed`;
`grid_to_pdf` (lines 257-259) tests `doc.is_closed` — without `not`. -/

/-- State of a document session when the `finally` block runs. -/
structure SessionState where
  opened : Bool
  is_closed : Bool
deriving DecidableEq, Repr

/-- `finally` of `masking_to_pdf` (lines 98-100):
`if 'doc' in locals() and not doc.is_closed: doc.close()`. -/
def masking_finally_closes (s : SessionState) : Bool := s.opened && !s.is_closed

/-- `finally` of `grid_to_pdf` (lines 257-259):
`if 'doc' in locals() and doc.is_closed: doc.close()` — the condition is
`doc.is_closed`, not `not doc.is_closed`. -/
def grid_finally_closes (s : SessionState) : Bool := s.opened && s.is_closed

/-- Number of `close` calls an opened-or-not `grid_to_pdf` session receives:
the try-block never closes `doc` (`save` does not close), so the `finally`
test runs on an open handle. -/
def grid_session_close_count (opened : Bool) : ℕ :=
  if grid_finally_closes ⟨opened, false⟩ then 1 else 0

/-- Number of `close` calls an opened-or-not `masking_to_pdf` session
receives: the try-block never closes `doc`, so the `finally` test runs on an
open handle. -/
def masking_session_close_count (opened : Bool) : ℕ :=
  if masking_finally_closes ⟨opened, false⟩ then 1 else 0

/-! ## Redaction (C4) — `masking_to_pdf` page loop (lines 81-92) -/

/-- A requested mask: the code checks `isinstance(mask_rect, pymupdf.Rect)`,
so a request is either a rectangle or some other value. -/
inductive MaskItem where
  | rect : PRect → MaskItem
  | notRect : MaskItem
deriving DecidableEq, Repr

/-- Line 88: a mask is registered as a redaction iff
`isinstance(mask_rect, pymupdf.Rect) and mask_rect.is_valid`. -/
def mask_registered (m : MaskItem) : Bool :=
  match m with
  | MaskItem.rect r => r.is_valid
  | MaskItem.notRect => false

/-- Result of the inner mask loop on one page: the registered black-fill
redaction rectangles (in request order) and the number of invalid masks
logged via `logger.error`. -/
structure MaskPageResult where
  redactions : List PRect
  errors_logged : ℕ
deriving DecidableEq, Repr

/-- The inner mask loop of `masking_to_pdf` (lines 86-91): each valid
rectangle is registered with `add_redact_annot(..., fill=(0,0,0))`, each
invalid request is logged and skipped. -/
def masking_process_masks (masks : List MaskItem) : MaskPageResult :=
  masks.foldl
    (fun acc m =>
      match m with
      | MaskItem.rect r =>
          if r.is_valid then ⟨acc.redactions ++ [r], acc.errors_logged⟩
          else ⟨acc.redactions, acc.errors_logged + 1⟩
      | MaskItem.notRect => ⟨acc.redactions, acc.errors_logged + 1⟩)
    ⟨[], 0⟩

/-! ## `split_by_delimiter` (C8) — lines 274-306

Python strings are modelled as `List Char`.  `splitCh` models
`text.split(sep)` for a one-character separator (predicate `p = (· = sep)`);
Python `text.split()` (no argument) equals the same splitting on whitespace
with empty groups removed.  `text.split(...)[0]` is the head of the result;
for `text.split()` the result can be empty, in which case Python raises
`IndexError` — modelled by `none`. -/

/-- Python `text.split(sep)` for a one-character separator: split at every
character satisfying `p`, keeping empty segments (`"".split(",") == [""]`,
`"a,,b".split(",") == ["a","","b"]`). -/
def splitCh : List Char → (Char → Bool) → List (List Char)
  | [], _ => [[]]
  | c :: cs, p =>
      if p c then [] :: splitCh cs p
      else
        match splitCh cs p with
        | [] => [[c]]
        | g :: gs => (c :: g) :: gs

/-- Python `str` whitespace for ASCII: `' '`, `'\t'`, `'\n'`, `'\r'`,
`'\x0b'`, `'\x0c'` (the inputs in scope — file names — are modelled as ASCII;
`str.split()` additionally treats Unicode whitespace the same way). -/
def pyIsSpace (c : Char) : Bool :=
  c = ' ' || c = '\t' || c = '\n' || c = '\x0d' || c = '\x0b' || c = '\x0c'

/-- The delimiter characters of the `Delimiters` enum (lines 261-272); `No`
and `Space` have no single-character separator. -/
inductive Delimiters where
  | No | Space | Colon | Semicolon | Comma | Hyphen | Underscore
  | Slash | Backslash | At | Pipe
deriving DecidableEq, Repr

/-- The separator character used by `split_by_delimiter` for each variant
that calls `text.split(c)`. -/
def delimChar : Delimiters → Option Char
  | Delimiters.Colon => some ':'
  | Delimiters.Semicolon => some ';'
  | Delimiters.Comma => some ','
  | Delimiters.Hyphen => some '-'
  | Delimiters.Underscore => some '_'
  | Delimiters.Slash => some '/'
  | Delimiters.Backslash => some '\\'
  | Delimiters.At => some '@'
  | Delimiters.Pipe => some '|'
  | _ => none

/-- `split_by_delimiter(text, delimiter)` (lines 274-306).  `No` returns the
text unchanged; `Space` returns `text.split()[0]` (whitespace split with
empty groups dropped — `none` models the `IndexError` raised when the split
list is empty); every other variant returns `text.split(c)[0]`, whose split
list is never empty. -/
def split_by_delimiter (text : List Char) (delimiter : Delimiters) : Option (List Char) :=
  match delimiter with
  | Delimiters.No => some text
  | Delimiters.Space => ((splitCh text pyIsSpace).filter (· ≠ [])).head?
  | d =>
      match delimChar d with
      | some c => (splitCh text (fun a => a == c)).head?
      | none => some text

/-! ## Folder drivers and natural sort (C6)

`concat_pdf` (lines 1099-1112) enumerates `*.pdf` via `glob.glob`, sorts the
paths with `natsort.natsorted`, then concatenates in that order.  The folder
drivers `masking_to_pdf_in_folder` (line 127), `header_to_pdf_in_folder`
(line 503), `header_and_pagenum_to_pdf_in_folder` (line 909) and
`header_and_frame_to_pdf_in_folder` (line 1056) iterate the `glob.glob`
result directly — no sort of any kind — and call the single-document
operation with output path `output_folder + "/" + os.path.basename(input)`.

`natsort.natsorted` is an external collaborator (the spec lists natural-order
sorting among external interfaces); it is modelled from the spec: keys are the
maximal digit / non-digit runs of the string, digit runs comparing by numeric
value. -/

/-- One step of natural-sort tokenisation: fold a character onto the reversed
token list, extending the current digit run or character run. -/
def natStep (acc : List (Sum ℕ (List Char))) (c : Char) : List (Sum ℕ (List Char)) :=
  if c.isDigit then
    match acc with
    | Sum.inl n :: rest => Sum.inl (n * 10 + (c.toNat - 48)) :: rest
    | _ => Sum.inl (c.toNat - 48) :: acc
  else
    match acc with
    | Sum.inr cs :: rest => Sum.inr (c :: cs) :: rest
    | _ => Sum.inr [c] :: acc

/-- Modelled from the spec: the natural-sort key of a string — its maximal
digit runs (as numbers) and non-digit runs, in order. -/
def natKey (s : String) : List (Sum ℕ (List Char)) :=
  ((s.data.foldl natStep []).map
    (fun t => match t with | Sum.inl n => Sum.inl n | Sum.inr cs => Sum.inr cs.reverse)).reverse

/-- Strict lexicographic order on character runs. -/
def chListLt : List Char → List Char → Bool
  | _, [] => false
  | [], _ :: _ => true
  | a :: as, b :: bs => if a < b then true else if b < a then false else chListLt as bs

/-- Strict order on natural-sort tokens: digit runs by value, character runs
lexicographically, digit runs before character runs. -/
def tokenLt : Sum ℕ (List Char) → Sum ℕ (List Char) → Bool
  | Sum.inl a, Sum.inl b => decide (a < b)
  | Sum.inr a, Sum.inr b => chListLt a b
  | Sum.inl _, Sum.inr _ => true
  | Sum.inr _, Sum.inl _ => false

/-- Strict lexicographic order on token lists. -/
def keyLt : List (Sum ℕ (List Char)) → List (Sum ℕ (List Char)) → Bool
  | _, [] => false
  | [], _ :: _ => true
  | a :: as, b :: bs => if tokenLt a b then true else if tokenLt b a then false else keyLt as bs

/-- Modelled from the spec: natural-order `≤` on strings (numeric-aware, so
`"2" ≤ "10"`). -/
def natLe (a b : String) : Bool := keyLt (natKey a) (natKey b) || decide (natKey a = natKey b)

/-- Modelled from the spec: `natsort.natsorted` — sort the path list in
natural order. -/
def natsorted (files : List String) : List String :=
  List.insertionSort (fun a b => natLe a b = true) files

/-- The concatenation order of `concat_pdf` (lines 1099-1108): the `glob`
result sorted with `natsort.natsorted`. -/
def concat_pdf_order (files : List String) : List String := natsorted files

/-- Helper for `pyBasename`: scan the characters, resetting the accumulated
component at each `'/'`. -/
def basenameAux : List Char → List Char → List Char
  | [], acc => acc.reverse
  | c :: cs, acc => if c = '/' then basenameAux cs [] else basenameAux cs (c :: acc)

/-- `os.path.basename`: the component after the last `'/'`. -/
def pyBasename (s : String) : String := ⟨basenameAux s.data []⟩

/-- The per-file jobs of `header_to_pdf_in_folder` (lines 503-505): iterate
the `glob.glob` result in the order given, pairing each input with output
path `output_folder + "/" + basename(input)`.  `masking_to_pdf_in_folder`,
`header_and_pagenum_to_pdf_in_folder` and `header_and_frame_to_pdf_in_folder`
have the same loop shape. -/
def header_to_pdf_in_folder_jobs (outDir : String) : List String → List (String × String)
  | [] => []
  | f :: fs => (f, outDir ++ "/" ++ pyBasename f) :: header_to_pdf_in_folder_jobs outDir fs

/-! ## Grid renderer (C3) — `grid_to_pdf` (lines 166-253)

Per page, three passes.  Each pass iterates
`range(0, int(page_height), int(interval))` × `range(0, int(page_width),
int(interval))` (row-major), and for each start `(x, y)` clips the cell to
the page: `x1 = min(x + interval, W)`, `y1 = min(y + interval, H)`, drawing
it only when `x1 > x0 and y1 > y0`.  The three passes use intervals
`I`, `5 I`, `10 I` and stroke widths `w`, `5 w`, `10 w`.  `int(...)` is
Python truncation toward zero; `range` with step `0` raises `ValueError`
(caught by the surrounding `try`, so nothing is saved) — modelled by `none`. -/

/-- Python `int()` on a rational: truncation toward zero. -/
def pyInt (q : ℚ) : ℤ := if 0 ≤ q then ⌊q⌋ else -⌊-q⌋

/-- Python `range(0, stop, step)` for `step ≠ 0` (negative step with
`stop ≥ 0`, or non-positive `stop`, gives the empty range). -/
def pyRange (stop step : ℤ) : List ℤ :=
  if step ≤ 0 then []
  else (List.range (((max stop 0).toNat + step.toNat - 1) / step.toNat)).map
    (fun (k : ℕ) => (k : ℤ) * step)

/-- The cells drawn by one grid pass on a `W × H` page at the given interval
(lines 186-202 and the two analogous loops). -/
def gridPassCells (W H interval : ℚ) : List PRect :=
  (pyRange (pyInt H) (pyInt interval)).flatMap (fun (y : ℤ) =>
    (pyRange (pyInt W) (pyInt interval)).filterMap (fun (x : ℤ) =>
      let x0 : ℚ := (x : ℚ)
      let y0 : ℚ := (y : ℚ)
      let x1 : ℚ := min (x0 + interval) W
      let y1 : ℚ := min (y0 + interval) H
      if x1 > x0 ∧ y1 > y0 then some ⟨x0, y0, x1, y1⟩ else none))

/-- One styled overlay layer of the grid: its interval, stroke width and the
rectangles drawn. -/
structure GridPass where
  interval : ℚ
  strokeWidth : ℚ
  cells : List PRect
deriving DecidableEq, Repr

/-- The three overlay layers `grid_to_pdf` draws on a `W × H` page for base
interval `I` and base stroke width `w` (lines 184-250), or `none` when
`int(I) = 0` makes the first `range` call raise `ValueError`. -/
def grid_page_render (W H I w : ℚ) : Option (List GridPass) :=
  if pyInt I = 0 then none
  else some
    [⟨I, w, gridPassCells W H I⟩,
     ⟨5 * I, 5 * w, gridPassCells W H (5 * I)⟩,
     ⟨10 * I, 10 * w, gridPassCells W H (10 * I)⟩]

/-- `v` is an x-boundary of one of the cells. -/
def isXBoundary (cells : List PRect) (v : ℚ) : Bool :=
  cells.any (fun c => decide (c.x0 = v) || decide (c.x1 = v))

/-- `v` is a y-boundary of one of the cells. -/
def isYBoundary (cells : List PRect) (v : ℚ) : Bool :=
  cells.any (fun c => decide (c.y0 = v) || decide (c.y1 = v))

/-! # Theorems -/

/-! ## Helper lemmas -/

theorem hp_process_from_append (cfg : HPConfig) (total start : ℕ) (a b : List (ℚ × ℚ)) :
    hp_process_from cfg total start (a ++ b) =
      hp_process_from cfg total start a ++ hp_process_from cfg total (start + a.length) b := by
  induction a generalizing start with
  | nil => simp [hp_process_from]
  | cons pg rest ih =>
      show hp_process_page cfg total start pg
          ++ hp_process_from cfg total (start + 1) (rest ++ b)
        = (hp_process_page cfg total start pg ++ hp_process_from cfg total (start + 1) rest)
          ++ hp_process_from cfg total (start + (rest.length + 1)) b
      rw [ih (start + 1), List.append_assoc]
      have h : start + 1 + rest.length = start + (rest.length + 1) := by omega
      rw [h]

theorem PRect.height_le_zero_iff (r : PRect) : r.height ≤ 0 ↔ r.y1 ≤ r.y0 := by
  simp [PRect.height, max_le_iff, sub_nonpos]

theorem masking_go_redactions (init : MaskPageResult) (masks : List MaskItem) :
    (masks.foldl
      (fun acc m =>
        match m with
        | MaskItem.rect r =>
            if r.is_valid then ⟨acc.redactions ++ [r], acc.errors_logged⟩
            else ⟨acc.redactions, acc.errors_logged + 1⟩
        | MaskItem.notRect => ⟨acc.redactions, acc.errors_logged + 1⟩) init).redactions
    = init.redactions ++ masks.filterMap
        (fun m =>
          match m with
          | MaskItem.rect r => if r.is_valid then some r else none
          | MaskItem.notRect => none) := by
  induction masks generalizing init with
  | nil => simp
  | cons m rest ih =>
      cases m with
      | rect r =>
          by_cases h : r.is_valid <;>
            simp [h, ih, List.filterMap_cons, List.append_assoc]
      | notRect => simp [ih, List.filterMap_cons]

/-! ## Claim C2 -/

/-- Claim C2: for every page of width `W` and height `H`, the header region is
`(0, 0, W, headerHeight)`, the footer region is `(0, H - footerHeight, W, H)`;
with `resizeOriginal` the content regions are
`(0, headerHeight, W, H - footerHeight)` (header+footer stamping),
`(0, headerHeight, W, H - 0)` (header-only, `footerHeight = 0`) and
`(0, 0, W, H - footerHeight)` (footer-only, `headerHeight = 0`); without
`resizeOriginal` the content region is the full page `(0, 0, W, H)` in all
three stamping operations. -/
theorem regions_match_spec_C2 (W H header_height footer_height : ℚ) :
    header_region W header_height = ⟨0, 0, W, header_height⟩ ∧
    footer_region W H footer_height = ⟨0, H - footer_height, W, H⟩ ∧
    hp_content_rect W H header_height footer_height true =
      ⟨0, header_height, W, H - footer_height⟩ ∧
    header_to_pdf_content_rect W H header_height true = ⟨0, header_height, W, H - 0⟩ ∧
    pagenum_to_pdf_content_rect W H footer_height true = ⟨0, 0, W, H - footer_height⟩ ∧
    hp_content_rect W H header_height footer_height false = ⟨0, 0, W, H⟩ ∧
    header_to_pdf_content_rect W H header_height false = ⟨0, 0, W, H⟩ ∧
    pagenum_to_pdf_content_rect W H footer_height false = ⟨0, 0, W, H⟩ := by
  refine ⟨rfl, rfl, rfl, ?_, rfl, rfl, rfl, rfl⟩
  simp [header_to_pdf_content_rect]

/-! ## Claim C5 -/

/-- Claim C5 (code bug evaluation): with the input file present, the output
file present, distinct paths and `overwrite=False`, the guard sequences of
`header_to_pdf`, `pagenum_to_pdf`, `header_and_pagenum_to_pdf` and
`concat_pdf` proceed to write (their overwrite guard logs the fatal
"already exists, will not overwrite, terminating" message but has no
`return`), while `masking_to_pdf` and `grid_to_pdf` abort as the spec
requires. -/
theorem overwrite_guard_eval_C5 :
    header_to_pdf_guard ⟨true, true, false⟩ false = GuardResult.proceed ∧
    pagenum_to_pdf_guard ⟨true, true, false⟩ false = GuardResult.proceed ∧
    hp_guard ⟨true, true, false⟩ false = GuardResult.proceed ∧
    concat_pdf_guard ⟨true, true, false⟩ false = GuardResult.proceed ∧
    masking_to_pdf_guard ⟨true, true, false⟩ false = GuardResult.abort ∧
    grid_to_pdf_guard ⟨true, true, false⟩ false = GuardResult.abort := by
  decide

/-! ## Claim C7 -/

/-- Claim C7 (code bug evaluation): `grid_to_pdf`'s `finally` block tests
`doc.is_closed` instead of `not doc.is_closed`, so an opened session reaching
`finally` open (every path: `save` does not close) is closed 0 times, not
exactly once, and a hypothetically already-closed handle would be closed
again; `masking_to_pdf`'s release logic closes an opened session exactly once
and tolerates a never-opened one. -/
theorem grid_close_eval_C7 :
    grid_session_close_count true = 0 ∧
    grid_session_close_count false = 0 ∧
    masking_session_close_count true = 1 ∧
    masking_session_close_count false = 0 ∧
    grid_finally_closes ⟨true, true⟩ = true := by
  decide

/-! ## Claim C1 -/

/-- Claim C1 (counterexample): on a 200×300 page with `header_height = 150`,
`footer_height = 160`, `resize_original = True`, the content region collapses
and `header_and_pagenum_to_pdf` emits TWO pages — the blank page it created
before the collapse check plus the verbatim copy — so the output is not
"exactly the verbatim copy and no extra page". -/
theorem hp_collapse_cex_C1 :
    hp_process_doc ⟨150, 160, true, true, false, false⟩ [(200, 300)] =
      [HPPage.blank 200 300, HPPage.copy 0] ∧
    [HPPage.blank 200 300, HPPage.copy 0] ≠ ([HPPage.copy 0] : List HPPage) := by
  constructor
  · have hcol : (hp_content_rect 200 300 150 160 true).height ≤ 0 := by
      rw [PRect.height_le_zero_iff]
      norm_num [hp_content_rect]
    simp [hp_process_doc, hp_process_from, hp_process_page, hcol]
  · simp

/-- Claim C1 (amended): in `header_and_pagenum_to_pdf`, for every page whose
computed content region has height ≤ 0, the loop iteration emits exactly the
blank page created before the collapse check followed by the verbatim copy of
the source page (no composited content, no partial page), and the whole
output document is the earlier pages' output, then this pair, then the
remaining pages' output — processing continues. -/
theorem hp_collapse_amended_C1 (cfg : HPConfig) (l₁ l₂ : List (ℚ × ℚ)) (pg : ℚ × ℚ)
    (hcol : (hp_content_rect pg.1 pg.2 cfg.header_height cfg.footer_height
      cfg.resize_original).height ≤ 0) :
    hp_process_page cfg (l₁ ++ pg :: l₂).length l₁.length pg =
      [HPPage.blank pg.1 pg.2, HPPage.copy l₁.length] ∧
    hp_process_doc cfg (l₁ ++ pg :: l₂) =
      hp_process_from cfg (l₁ ++ pg :: l₂).length 0 l₁
        ++ [HPPage.blank pg.1 pg.2, HPPage.copy l₁.length]
        ++ hp_process_from cfg (l₁ ++ pg :: l₂).length (l₁.length + 1) l₂ := by
  have hpage : hp_process_page cfg (l₁ ++ pg :: l₂).length l₁.length pg =
      [HPPage.blank pg.1 pg.2, HPPage.copy l₁.length] := by
    simp [hp_process_page, hcol]
  refine ⟨hpage, ?_⟩
  rw [hp_process_doc, hp_process_from_append]
  simp only [Nat.zero_add, hp_process_from]
  rw [hpage]
  simp [List.append_assoc]

/-- Witness for the amended C1 theorem at the spec's own example: a single
200×300 page with `header_height = 150`, `footer_height = 160`,
`resize_original = True`. -/
theorem hp_collapse_amended_C1_witness :
    hp_process_page (⟨150, 160, true, true, false, false⟩ : HPConfig) 1 0 (200, 300) =
      [HPPage.blank 200 300, HPPage.copy 0] := by
  have h := hp_collapse_amended_C1 ⟨150, 160, true, true, false, false⟩ [] [] (200, 300)
    (by rw [PRect.height_le_zero_iff]; norm_num [hp_content_rect])
  simpa using h.1

/-! ## Claim C9 -/

/-- Claim C9 (counterexample): in `header_and_pagenum_to_pdf` the footer text
for page index 0 with total-page display disabled is `" 1"` — with a leading
space — not exactly `"1"` as claimed. -/
theorem pagenum_text_cex_C9 :
    hp_pagenum_text false 0 3 = " 1" ∧ (" 1" : String) ≠ "1" := by
  refine ⟨rfl, by decide⟩

/-- Claim C9 (amended): `pagenum_to_pdf` stamps exactly `"{i+1}"`
(respectively `"{i+1} / {totalPages}"` with total-page display), while
`header_and_pagenum_to_pdf` stamps the same text prefixed by a single space;
on every non-collapsed page with `write_pagenum` enabled the composed page
carries exactly that footer text. -/
theorem pagenum_text_amended_C9 (b : Bool) (idx total : ℕ) (cfg : HPConfig) (pg : ℚ × ℚ) :
    pagenum_to_pdf_text b idx total =
      (if b then toString (idx + 1) ++ " / " ++ toString total else toString (idx + 1)) ∧
    hp_pagenum_text b idx total = " " ++ pagenum_to_pdf_text b idx total ∧
    (cfg.write_pagenum = true →
      ¬ (hp_content_rect pg.1 pg.2 cfg.header_height cfg.footer_height
          cfg.resize_original).height ≤ 0 →
      (hp_process_page cfg total idx pg).map HPPage.footerTextField =
        [some (some (hp_pagenum_text cfg.show_total_pages idx total))]) := by
  refine ⟨rfl, ?_, ?_⟩
  · cases b <;> simp [hp_pagenum_text, pagenum_to_pdf_text, String.append_assoc]
  · intro hw hcol
    simp [hp_process_page, hcol, hw, HPPage.footerTextField]

/-- Witness for the amended C9 theorem: a 200×300 page, `header_height = 70`,
`footer_height = 30`, `resize_original = True`, `write_pagenum = True`. -/
theorem pagenum_text_amended_C9_witness :
    (hp_process_page (⟨70, 30, true, true, false, false⟩ : HPConfig) 1 0 (200, 300)).map
      HPPage.footerTextField = [some (some " 1")] := by
  have h := (pagenum_text_amended_C9 false 0 1 ⟨70, 30, true, true, false, false⟩
    (200, 300)).2.2 rfl
    (by rw [PRect.height_le_zero_iff]; norm_num [hp_content_rect])
  simpa [hp_pagenum_text] using h

/-! ## Claim C10 -/

/-- Claim C10: with `stamp_only_firstpage = True`, `header_to_pdf` inserts the
header text on no page at all (line 412 `continue`s unconditionally, for every
index), while `header_and_pagenum_to_pdf` inserts it exactly on index 0 of
every non-collapsed page (line 790 `continue`s only for `page_idx > 0`). -/
theorem stamp_only_firstpage_C10 (cfg : HeaderConfig) (idx : ℕ) (pg : ℚ × ℚ)
    (cfg2 : HPConfig) (total idx2 : ℕ) (pg2 : ℚ × ℚ)
    (h1 : cfg.stamp_only_firstpage = true)
    (h2 : cfg2.stamp_only_firstpage = true)
    (hcol : ¬ (hp_content_rect pg2.1 pg2.2 cfg2.header_height cfg2.footer_height
      cfg2.resize_original).height ≤ 0) :
    (header_to_pdf_process_page cfg idx pg).header_stamped = false ∧
    (hp_process_page cfg2 total idx2 pg2).map HPPage.headerStampedField =
      [some (decide (idx2 = 0))] := by
  constructor
  · simp [header_to_pdf_process_page, h1]
  · have : (!(cfg2.stamp_only_firstpage && decide (0 < idx2))) = decide (idx2 = 0) := by
      rcases Nat.eq_zero_or_pos idx2 with h | h
      · simp [h, h2]
      · simp [h2, h, Nat.pos_iff_ne_zero.mp h]
    simp [hp_process_page, hcol, HPPage.headerStampedField, this]

/-- Witness for C10: `stamp_only_firstpage = True` on a 200×300 page with
`header_height = 70`, `footer_height = 30`: `header_to_pdf` stamps nothing
(also on index 0), `header_and_pagenum_to_pdf` stamps index 0. -/
theorem stamp_only_firstpage_C10_witness :
    (header_to_pdf_process_page (⟨70, true, true⟩ : HeaderConfig) 0 (200, 300)).header_stamped
      = false ∧
    (hp_process_page (⟨70, 30, true, true, false, true⟩ : HPConfig) 2 0 (200, 300)).map
      HPPage.headerStampedField = [some true] := by
  have h := stamp_only_firstpage_C10 ⟨70, true, true⟩ 0 (200, 300)
    ⟨70, 30, true, true, false, true⟩ 2 0 (200, 300) rfl rfl
    (by rw [PRect.height_le_zero_iff]; norm_num [hp_content_rect])
  exact ⟨h.1, by simpa using h.2⟩

/-! ## Claim C4 -/

/-- Claim C4 (counterexample): the degenerate rectangle `(0, 0, 0, 5)` fails
the claimed validity predicate `x1 > x0 ∧ y1 > y0`, yet `masking_to_pdf`
registers it as a redaction: line 88 checks PyMuPDF's `is_valid`
(`x0 ≤ x1 ∧ y0 ≤ y1`), which degenerate rectangles satisfy. -/
theorem mask_degenerate_cex_C4 :
    mask_registered (MaskItem.rect ⟨0, 0, 0, 5⟩) = true ∧
    ¬ (((0 : ℚ) < 0) ∧ ((0 : ℚ) < 5)) := by
  decide

/-- Claim C4 (amended): a requested mask is registered as a black-fill
redaction exactly when it is a rectangle satisfying the non-strict predicate
`x1 ≥ x0 ∧ y1 ≥ y0` (PyMuPDF `is_valid`; degenerate rectangles pass); masks
failing it (or non-rectangles) are logged and skipped while the remaining
registered masks are applied in request order, and if every requested mask is
rejected the page's redaction list is empty, so the page is saved
unmodified. -/
theorem mask_filter_amended_C4 (masks : List MaskItem) (m : MaskItem) :
    (mask_registered m = true ↔
      ∃ r, m = MaskItem.rect r ∧ r.x0 ≤ r.x1 ∧ r.y0 ≤ r.y1) ∧
    (masking_process_masks masks).redactions =
      masks.filterMap
        (fun x =>
          match x with
          | MaskItem.rect r => if r.is_valid then some r else none
          | MaskItem.notRect => none) ∧
    ((∀ x ∈ masks, mask_registered x = false) →
      (masking_process_masks masks).redactions = []) := by
  have hred : (masking_process_masks masks).redactions =
      masks.filterMap
        (fun x =>
          match x with
          | MaskItem.rect r => if r.is_valid then some r else none
          | MaskItem.notRect => none) := by
    simpa [masking_process_masks] using masking_go_redactions ⟨[], 0⟩ masks
  refine ⟨?_, hred, ?_⟩
  · cases m with
    | rect r => simp [mask_registered, PRect.is_valid]
    | notRect => simp [mask_registered]
  · intro hall
    rw [hred]
    apply List.filterMap_eq_nil_iff.mpr
    intro x hx
    have := hall x hx
    cases x with
    | rect r => simp_all [mask_registered]
    | notRect => rfl

/-- Witness for the amended C4 theorem: the invalid rectangle `(2, 0, 1, 5)`
(`x1 < x0`) is not registered, and a request list containing only it yields
no redactions. -/
theorem mask_filter_amended_C4_witness :
    ¬ mask_registered (MaskItem.rect ⟨2, 0, 1, 5⟩) = true ∧
    (masking_process_masks [MaskItem.rect ⟨2, 0, 1, 5⟩]).redactions = [] := by
  have h := mask_filter_amended_C4 [MaskItem.rect ⟨2, 0, 1, 5⟩] (MaskItem.rect ⟨2, 0, 1, 5⟩)
  refine ⟨?_, h.2.2 (by decide)⟩
  intro hreg
  rcases h.1.mp hreg with ⟨r, hr, hx, _⟩
  cases hr
  exact absurd hx (by norm_num)

/-! ## Claim C8 -/

theorem splitCh_ne_nil (l : List Char) (p : Char → Bool) : splitCh l p ≠ [] := by
  cases l with
  | nil => simp [splitCh]
  | cons c cs =>
      by_cases h : p c
      · simp [splitCh, h]
      · simp only [splitCh, h]
        cases hc : splitCh cs p <;> simp

theorem splitCh_head (l : List Char) (p : Char → Bool) :
    (splitCh l p).head? = some (l.takeWhile (fun a => !p a)) := by
  induction l with
  | nil => simp [splitCh]
  | cons c cs ih =>
      by_cases h : p c
      · simp [splitCh, h, List.takeWhile_cons]
      · cases hc : splitCh cs p with
        | nil => exact absurd hc (splitCh_ne_nil cs p)
        | cons g gs =>
            have hg : g = cs.takeWhile (fun a => !p a) := by
              rw [hc] at ih
              simpa using ih
            simp [splitCh, h, hc, List.takeWhile_cons, hg]

theorem splitCh_filter_head (l : List Char) (p : Char → Bool) :
    ((splitCh l p).filter (· ≠ [])).head? =
      if l.dropWhile p = [] then none
      else some ((l.dropWhile p).takeWhile (fun a => !p a)) := by
  induction l with
  | nil => simp [splitCh]
  | cons c cs ih =>
      by_cases h : p c
      · simpa [splitCh, h, List.dropWhile_cons, List.filter_cons] using ih
      · cases hc : splitCh cs p with
        | nil => exact absurd hc (splitCh_ne_nil cs p)
        | cons g gs =>
            have hg : g = cs.takeWhile (fun a => !p a) := by
              have hh := splitCh_head cs p
              rw [hc] at hh
              simpa using hh
            simp [splitCh, h, hc, List.dropWhile_cons, List.filter_cons,
              List.takeWhile_cons, hg]

/-- Claim C8 (counterexample): on the empty string the space delimiter does
not occur, so the claim demands the whole string back; the code evaluates
`"".split()[0]`, whose split list is empty, and raises `IndexError`
(no value) instead. -/
theorem split_space_empty_cex_C8 :
    split_by_delimiter [] Delimiters.Space = none ∧
    (none : Option (List Char)) ≠ some [] := by
  decide

/-- Claim C8 (amended): for the `No` variant `split_by_delimiter` returns the
whole string; for every single-character variant it returns the first segment
before the first occurrence of the delimiter (the whole string when absent);
for the `Space` variant it follows Python `str.split()`: leading whitespace
is discarded and the first maximal non-whitespace run is returned, and on a
string with no non-whitespace character (including the empty string) the
subscript `[0]` raises `IndexError` instead of returning the whole string. -/
theorem split_by_delimiter_amended_C8 (text : List Char) (d : Delimiters) (c : Char) :
    (split_by_delimiter text Delimiters.No = some text) ∧
    (delimChar d = some c →
      split_by_delimiter text d = some (text.takeWhile (fun a => !(a == c)))) ∧
    ((∀ a ∈ text, pyIsSpace a = true) →
      split_by_delimiter text Delimiters.Space = none) ∧
    (text.dropWhile pyIsSpace ≠ [] →
      split_by_delimiter text Delimiters.Space =
        some ((text.dropWhile pyIsSpace).takeWhile (fun a => !pyIsSpace a))) := by
  refine ⟨rfl, ?_, ?_, ?_⟩
  · intro h
    cases d <;> simp only [delimChar, Option.some.injEq, reduceCtorEq] at h <;>
      subst h <;> simp [split_by_delimiter, splitCh_head, delimChar]
  · intro h
    have hnil : text.dropWhile pyIsSpace = [] := List.dropWhile_eq_nil_iff.mpr h
    show ((splitCh text pyIsSpace).filter (· ≠ [])).head? = none
    rw [splitCh_filter_head, if_pos hnil]
  · intro h
    show ((splitCh text pyIsSpace).filter (· ≠ [])).head? = _
    rw [splitCh_filter_head, if_neg h]

/-- Witness for the amended C8 theorem: `"ab:cd"` with the colon delimiter
yields `"ab"`; the all-whitespace string `"  "` with the space delimiter
yields no value. -/
theorem split_by_delimiter_amended_C8_witness :
    split_by_delimiter "ab:cd".data Delimiters.Colon = some "ab".data ∧
    split_by_delimiter "  ".data Delimiters.Space = none := by
  have h := split_by_delimiter_amended_C8 "ab:cd".data Delimiters.Colon ':'
  have h2 := split_by_delimiter_amended_C8 "  ".data Delimiters.Space ':'
  refine ⟨?_, h2.2.2.1 (by decide)⟩
  rw [h.2.1 rfl]
  decide

/-! ## Claim C6 -/

theorem header_jobs_map_fst (outDir : String) (files : List String) :
    (header_to_pdf_in_folder_jobs outDir files).map Prod.fst = files := by
  induction files with
  | nil => rfl
  | cons f fs ih => simp [header_to_pdf_in_folder_jobs, ih]

theorem header_jobs_path (outDir : String) (files : List String) :
    ∀ j ∈ header_to_pdf_in_folder_jobs outDir files,
      j.2 = outDir ++ "/" ++ pyBasename j.1 := by
  induction files with
  | nil => intro j hj; simp [header_to_pdf_in_folder_jobs] at hj
  | cons f fs ih =>
      intro j hj
      simp only [header_to_pdf_in_folder_jobs, List.mem_cons] at hj
      rcases hj with h | h
      · subst h; rfl
      · exact ih j h

/-- Claim C6 (counterexample): `header_to_pdf_in_folder` iterates the
`glob.glob` result with no sort at all, so when directory enumeration yields
`["10.pdf", "1.pdf", "2.pdf"]` the files are processed in that order, which
differs from the natural order `["1.pdf", "2.pdf", "10.pdf"]` the claim
requires (and which `concat_pdf` does apply via `natsort.natsorted`). -/
theorem folder_glob_order_cex_C6 :
    (header_to_pdf_in_folder_jobs "out" ["10.pdf", "1.pdf", "2.pdf"]).map Prod.fst =
      ["10.pdf", "1.pdf", "2.pdf"] ∧
    concat_pdf_order ["10.pdf", "1.pdf", "2.pdf"] = ["1.pdf", "2.pdf", "10.pdf"] ∧
    (["10.pdf", "1.pdf", "2.pdf"] : List String) ≠ ["1.pdf", "2.pdf", "10.pdf"] := by
  refine ⟨by decide, by decide, by decide⟩

/-- Claim C6 (amended): only `concat_pdf` sorts the enumerated `.pdf` files in
natural order (numeric-aware, `"2.pdf"` before `"10.pdf"`); the folder-wide
operations (`header_to_pdf_in_folder` and its siblings) process the files in
the order directory enumeration returns them — no sort — and invoke the
single-document operation with output path `outputDir/basename(input)`. -/
theorem folder_order_amended_C6 (files : List String) (outDir : String) :
    (header_to_pdf_in_folder_jobs outDir files).map Prod.fst = files ∧
    (∀ j ∈ header_to_pdf_in_folder_jobs outDir files,
      j.2 = outDir ++ "/" ++ pyBasename j.1) ∧
    List.Perm (concat_pdf_order files) files ∧
    natLe "2.pdf" "10.pdf" = true ∧
    natLe "10.pdf" "2.pdf" = false :=
  ⟨header_jobs_map_fst outDir files, header_jobs_path outDir files,
    List.perm_insertionSort _ files, by decide, by decide⟩

/-- Witness for the amended C6 theorem at a one-file folder: the job built
for `"b/1.pdf"` outputs to `"out/1.pdf"`. -/
theorem folder_order_amended_C6_witness :
    (header_to_pdf_in_folder_jobs "out" ["b/1.pdf"]).map Prod.fst = ["b/1.pdf"] ∧
    (("b/1.pdf", "out/1.pdf") : String × String).2 =
      "out" ++ "/" ++ pyBasename "b/1.pdf" ∧
    List.Perm (concat_pdf_order ["b/1.pdf"]) ["b/1.pdf"] := by
  have h := folder_order_amended_C6 ["b/1.pdf"] "out"
  exact ⟨h.1, h.2.1 ("b/1.pdf", "out/1.pdf") (by simp only [header_to_pdf_in_folder_jobs]; exact List.mem_singleton.mpr (by decide)), h.2.2.1⟩

/-! ## Claim C3 -/

theorem pyInt_eq_floor (q : ℚ) (h : 0 ≤ q) : pyInt q = ⌊q⌋ := by
  rw [pyInt, if_pos h]

theorem pyInt_natCast (n : ℕ) : pyInt (n : ℚ) = (n : ℤ) := by
  rw [pyInt_eq_floor _ (by positivity)]
  exact Int.floor_natCast n

theorem mem_pyRange {a stop step : ℤ} :
    a ∈ pyRange stop step ↔ 0 < step ∧ ∃ k : ℕ, a = (k : ℤ) * step ∧ a < stop := by
  unfold pyRange
  by_cases h : step ≤ 0
  · rw [if_pos h]
    simp only [List.not_mem_nil, false_iff, not_and]
    intro hs
    omega
  · push_neg at h
    rw [if_neg (not_le.mpr h), List.mem_map]
    have hs : 0 < step.toNat := by omega
    have hcast : (step.toNat : ℤ) = step := Int.toNat_of_nonneg h.le
    have hm : ((max stop 0).toNat : ℤ) = max stop 0 := Int.toNat_of_nonneg (le_max_right _ _)
    constructor
    · rintro ⟨k, hk, rfl⟩
      rw [List.mem_range] at hk
      refine ⟨h, k, rfl, ?_⟩
      have h2 := (Nat.le_div_iff_mul_le hs).mp hk
      have h3 : k * step.toNat + step.toNat ≤ (max stop 0).toNat + step.toNat - 1 := by
        calc k * step.toNat + step.toNat = (k + 1) * step.toNat := by ring
        _ ≤ (max stop 0).toNat + step.toNat - 1 := h2
      have hks : k * step.toNat < (max stop 0).toNat := by omega
      have h4 : ((k * step.toNat : ℕ) : ℤ) < ((max stop 0).toNat : ℤ) := by
        exact_mod_cast hks
      have h5 : (k : ℤ) * step = ((k * step.toNat : ℕ) : ℤ) := by
        push_cast [hcast]
        ring
      rw [h5]
      omega
    · rintro ⟨-, k, rfl, hlt⟩
      refine ⟨k, List.mem_range.mpr ?_, rfl⟩
      have h5 : (k : ℤ) * step = ((k * step.toNat : ℕ) : ℤ) := by
        push_cast [hcast]
        ring
      have hks : k * step.toNat < (max stop 0).toNat := by
        have h6 : ((k * step.toNat : ℕ) : ℤ) < ((max stop 0).toNat : ℤ) := by
          rw [← h5, hm]
          omega
        exact_mod_cast h6
      apply (Nat.le_div_iff_mul_le hs).mpr
      rw [Nat.succ_mul]
      omega

theorem mem_gridPassCells {W H interval : ℚ} {c : PRect} :
    c ∈ gridPassCells W H interval ↔
      ∃ x y : ℤ, x ∈ pyRange (pyInt W) (pyInt interval) ∧
        y ∈ pyRange (pyInt H) (pyInt interval) ∧
        (min ((x : ℚ) + interval) W > (x : ℚ) ∧ min ((y : ℚ) + interval) H > (y : ℚ)) ∧
        c = ⟨(x : ℚ), (y : ℚ), min ((x : ℚ) + interval) W, min ((y : ℚ) + interval) H⟩ := by
  simp only [gridPassCells, List.mem_flatMap, List.mem_filterMap]
  constructor
  · rintro ⟨y, hy, x, hx, hc⟩
    split_ifs at hc with hcond
    exact ⟨x, y, hx, hy, hcond, (Option.some.inj hc).symm⟩
  · rintro ⟨x, y, hx, hy, hcond, rfl⟩
    exact ⟨y, hy, x, hx, by rw [if_pos hcond]⟩

theorem gridCell_mem (W H : ℚ) (I : ℕ) (hI : 1 ≤ I) (x y : ℤ)
    (hx : x ∈ pyRange (pyInt W) ((I : ℤ))) (hy : y ∈ pyRange (pyInt H) ((I : ℤ)))
    (hxW : (x : ℚ) < W) (hyH : (y : ℚ) < H) :
    (⟨(x : ℚ), (y : ℚ), min ((x : ℚ) + (I : ℚ)) W, min ((y : ℚ) + (I : ℚ)) H⟩ : PRect)
      ∈ gridPassCells W H (I : ℚ) := by
  apply mem_gridPassCells.mpr
  have hIQ : (0 : ℚ) < (I : ℚ) := by exact_mod_cast hI
  refine ⟨x, y, ?_, ?_, ⟨?_, ?_⟩, rfl⟩
  · rwa [pyInt_natCast]
  · rwa [pyInt_natCast]
  · exact lt_min (by linarith) hxW
  · exact lt_min (by linarith) hyH

theorem tier_start (I : ℕ) (hI : 1 ≤ I) (L : ℚ) (hL : 0 ≤ L) (x : ℤ)
    (hx : x ∈ pyRange (pyInt L) (((5 * I : ℕ) : ℤ))) :
    x ∈ pyRange (pyInt L) ((I : ℤ)) ∧ (x : ℚ) < L := by
  rcases mem_pyRange.mp hx with ⟨h5, k, rfl, hlt⟩
  have hIpos : (0 : ℤ) < (I : ℤ) := by exact_mod_cast hI
  constructor
  · refine mem_pyRange.mpr ⟨hIpos, k * 5, ?_, hlt⟩
    push_cast
    ring
  · have hfl : (k : ℤ) * ((5 * I : ℕ) : ℤ) < ⌊L⌋ := by rwa [pyInt_eq_floor L hL] at hlt
    have h1 : (((k : ℤ) * ((5 * I : ℕ) : ℤ) : ℤ) : ℚ) < (⌊L⌋ : ℚ) := by exact_mod_cast hfl
    exact lt_of_lt_of_le h1 (Int.floor_le L)

theorem tier_right (I : ℕ) (hI : 1 ≤ I) (L : ℚ) (hL : 0 ≤ L) (x : ℤ)
    (hx : x ∈ pyRange (pyInt L) (((5 * I : ℕ) : ℤ)))
    (hle : (x : ℚ) + 5 * (I : ℚ) ≤ L) :
    (x + 4 * I) ∈ pyRange (pyInt L) ((I : ℤ)) ∧
      ((x + 4 * I : ℤ) : ℚ) < L ∧
      min (((x + 4 * I : ℤ) : ℚ) + (I : ℚ)) L = (x : ℚ) + 5 * (I : ℚ) := by
  have hIpos : (0 : ℤ) < (I : ℤ) := by exact_mod_cast hI
  have hIQ : (1 : ℚ) ≤ (I : ℚ) := by exact_mod_cast hI
  rcases mem_pyRange.mp hx with ⟨h5, k, hk, hlt⟩
  have hfloor : x + 5 * I ≤ ⌊L⌋ := by
    apply Int.le_floor.mpr
    push_cast
    linarith
  refine ⟨?_, by push_cast; linarith, ?_⟩
  · apply mem_pyRange.mpr
    refine ⟨hIpos, 5 * k + 4, ?_, ?_⟩
    · rw [hk]
      push_cast
      ring
    · rw [pyInt_eq_floor L hL]
      omega
  · rw [min_eq_left (by push_cast; linarith)]
    push_cast
    ring

theorem boundary_of_mem_x (cells : List PRect) (c : PRect) (hc : c ∈ cells) (v : ℚ)
    (hv : c.x0 = v ∨ c.x1 = v) : isXBoundary cells v = true := by
  rw [isXBoundary, List.any_eq_true]
  refine ⟨c, hc, ?_⟩
  rcases hv with h | h <;> simp [h]

theorem boundary_of_mem_y (cells : List PRect) (c : PRect) (hc : c ∈ cells) (v : ℚ)
    (hv : c.y0 = v ∨ c.y1 = v) : isYBoundary cells v = true := by
  rw [isYBoundary, List.any_eq_true]
  refine ⟨c, hc, ?_⟩
  rcases hv with h | h <;> simp [h]

/-- Claim C3 (counterexample): with base interval `I = 2` (a positive value)
on a 6.5 × 4 page, the tier-`5I` pass draws the single cell
`(0, 0, 6.5, 4)`; its right boundary `x = 6.5` is the clipped page edge and
coincides with no tier-`I` cell boundary (these are `0, 2, 4, 6`), refuting
the exact-coincidence claim. -/
theorem grid_cex_C3 :
    gridPassCells (13/2) 4 (5 * 2) = [⟨0, 0, 13/2, 4⟩] ∧
    isXBoundary (gridPassCells (13/2) 4 2) (13/2) = false := by
  have h1 : pyInt (13/2 : ℚ) = 6 := by
    rw [pyInt_eq_floor _ (by norm_num)]
    norm_num
  have h2 : pyInt (4 : ℚ) = 4 := by
    rw [pyInt_eq_floor _ (by norm_num)]
    norm_num
  have h3 : pyInt (2 : ℚ) = 2 := by
    rw [pyInt_eq_floor _ (by norm_num)]
    norm_num
  have h10 : pyInt (5 * 2 : ℚ) = 10 := by
    rw [pyInt_eq_floor _ (by norm_num)]
    norm_num
  constructor
  · rw [gridPassCells, h1, h2, h10,
      show pyRange 4 10 = [0] from by decide, show pyRange 6 10 = [0] from by decide]
    simp only [List.flatMap_cons, List.flatMap_nil, List.append_nil,
      List.filterMap_cons, List.filterMap_nil, Int.cast_zero]
    norm_num [min_def, List.filterMap_cons, List.filterMap_nil]
  · rw [isXBoundary, gridPassCells, h1, h2, h3,
      show pyRange 4 2 = [0, 2] from by decide, show pyRange 6 2 = [0, 2, 4] from by decide]
    simp only [List.flatMap_cons, List.flatMap_nil, List.append_nil,
      List.filterMap_cons, List.filterMap_nil, Int.cast_zero, Int.cast_ofNat]
    norm_num [min_def, List.filterMap_cons, List.filterMap_nil, List.any_cons, List.any_nil]

/-- Claim C3 (amended): for a positive INTEGER base interval `I` on a page of
non-negative size, `grid_to_pdf` makes three passes at intervals `I`, `5I`,
`10I` with stroke widths `w`, `5w`, `10w`; in each pass a cell is drawn only
if its extent clipped to the page edge has strictly positive width and height
(zero-area remainders skipped); and every boundary of a tier-`5I` cell either
coincides with a tier-`I` cell boundary or lies on the clipped page edge
(`x = W` or `y = H`).  (For non-integer intervals the tiers lose alignment,
and a clipped tier-`5I` edge on a fractional page size coincides with no
tier-`I` boundary, as the counterexample shows.) -/
theorem grid_amended_C3 (I : ℕ) (W H w : ℚ) (hI : 1 ≤ I) (hW : 0 ≤ W) (hH : 0 ≤ H) :
    grid_page_render W H (I : ℚ) w = some
      [⟨(I : ℚ), w, gridPassCells W H (I : ℚ)⟩,
       ⟨5 * (I : ℚ), 5 * w, gridPassCells W H (5 * (I : ℚ))⟩,
       ⟨10 * (I : ℚ), 10 * w, gridPassCells W H (10 * (I : ℚ))⟩] ∧
    (∀ J : ℚ, ∀ c ∈ gridPassCells W H J, c.x0 < c.x1 ∧ c.y0 < c.y1) ∧
    (∀ c ∈ gridPassCells W H (5 * (I : ℚ)),
      isXBoundary (gridPassCells W H (I : ℚ)) c.x0 = true ∧
      isYBoundary (gridPassCells W H (I : ℚ)) c.y0 = true ∧
      (isXBoundary (gridPassCells W H (I : ℚ)) c.x1 = true ∨ c.x1 = W) ∧
      (isYBoundary (gridPassCells W H (I : ℚ)) c.y1 = true ∨ c.y1 = H)) := by
  have hpyI : pyInt (I : ℚ) = (I : ℤ) := pyInt_natCast I
  have h5c : (5 * (I : ℚ)) = ((5 * I : ℕ) : ℚ) := by push_cast; ring
  have hpy5 : pyInt (5 * (I : ℚ)) = ((5 * I : ℕ) : ℤ) := by rw [h5c, pyInt_natCast]
  refine ⟨?_, ?_, ?_⟩
  · rw [grid_page_render, if_neg (by rw [hpyI]; omega)]
  · intro J c hc
    rcases mem_gridPassCells.mp hc with ⟨x, y, -, -, ⟨hx1, hy1⟩, rfl⟩
    exact ⟨hx1, hy1⟩
  · intro c hc
    rcases mem_gridPassCells.mp hc with ⟨x, y, hx, hy, ⟨hpos1, hpos2⟩, rfl⟩
    rw [hpy5] at hx hy
    obtain ⟨hx1, hxW⟩ := tier_start I hI W hW x hx
    obtain ⟨hy1, hyH⟩ := tier_start I hI H hH y hy
    have hbase : (⟨(x : ℚ), (y : ℚ), min ((x : ℚ) + (I : ℚ)) W,
        min ((y : ℚ) + (I : ℚ)) H⟩ : PRect) ∈ gridPassCells W H (I : ℚ) :=
      gridCell_mem W H I hI x y hx1 hy1 hxW hyH
    refine ⟨?_, ?_, ?_, ?_⟩
    · exact boundary_of_mem_x _ _ hbase _ (Or.inl rfl)
    · exact boundary_of_mem_y _ _ hbase _ (Or.inl rfl)
    · rcases le_or_lt ((x : ℚ) + 5 * (I : ℚ)) W with hle | hgt
      · left
        obtain ⟨hx4, hx4W, hmin⟩ := tier_right I hI W hW x hx hle
        have hcell := gridCell_mem W H I hI (x + 4 * I) y hx4 hy1 hx4W hyH
        apply boundary_of_mem_x _ _ hcell
        right
        show min (((x + 4 * I : ℤ) : ℚ) + (I : ℚ)) W = min ((x : ℚ) + 5 * (I : ℚ)) W
        rw [hmin, min_eq_left hle]
      · right
        show min ((x : ℚ) + 5 * (I : ℚ)) W = W
        exact min_eq_right hgt.le
    · rcases le_or_lt ((y : ℚ) + 5 * (I : ℚ)) H with hle | hgt
      · left
        obtain ⟨hy4, hy4H, hmin⟩ := tier_right I hI H hH y hy hle
        have hcell := gridCell_mem W H I hI x (y + 4 * I) hx1 hy4 hxW hy4H
        apply boundary_of_mem_y _ _ hcell
        right
        show min (((y + 4 * I : ℤ) : ℚ) + (I : ℚ)) H = min ((y : ℚ) + 5 * (I : ℚ)) H
        rw [hmin, min_eq_left hle]
      · right
        show min ((y : ℚ) + 5 * (I : ℚ)) H = H
        exact min_eq_right hgt.le

/-- Witness for the amended C3 theorem at `I = 2`, a 6.5 × 4 page,
`w = 1/10`: the render produces the three tiers. -/
theorem grid_amended_C3_witness :
    grid_page_render (13/2) 4 ((2 : ℕ) : ℚ) (1/10) = some
      [⟨((2 : ℕ) : ℚ), 1/10, gridPassCells (13/2) 4 ((2 : ℕ) : ℚ)⟩,
       ⟨5 * ((2 : ℕ) : ℚ), 5 * (1/10), gridPassCells (13/2) 4 (5 * ((2 : ℕ) : ℚ))⟩,
       ⟨10 * ((2 : ℕ) : ℚ), 10 * (1/10), gridPassCells (13/2) 4 (10 * ((2 : ℕ) : ℚ))⟩] :=
  (grid_amended_C3 2 (13/2) 4 (1/10) (by norm_num) (by norm_num) (by norm_num)).1
